import Mathlib

/-!
Shallow embedding of the `judo` terminal to-do application (Rust), covering
the cursor-based text editor (src/ui/cursor.rs), the selection-repair logic of
the list and item components (src/ui/components/lists.rs and
src/ui/components/items.rs), and the application-state transitions around
database selection, switching and registry writes (src/app/state.rs,
src/db/config.rs).

Modelling conventions:
- A Rust `String` is modelled by its character sequence (`List Char`); byte
  offsets are recovered by summing `Char.utf8Size` over prefixes, exactly as
  the source computes them.
- Fallible collaborator calls (sqlx pool creation, SQL fetches, config-file
  writes, directory lookups) are passed in as oracle arguments of `Except` or
  `Option` type; functions that mutate `self` and return `Result<()>` become
  functions returning the new state paired with an `Except String Unit`.
- An `Option` wrapped around a whole result models a potential Rust panic
  (slice indexing out of range, `String::insert`/`String::remove` off a char
  boundary or past the end); `none` is the panic.
-/

namespace Judo

/-- Text buffers are modelled by their character sequences (a Rust `String` is
always valid UTF-8, hence faithfully represented by its `chars()`). -/
abbrev Text := List Char

/-- UTF-8 byte length of a buffer (Rust `str::len`): the sum of the encoded
sizes of its characters. -/
def byteLen (cs : Text) : Nat := (cs.map Char.utf8Size).sum

/-- Model of Rust `String::insert(byte_pos, c)`: walk the characters consuming
their UTF-8 sizes; `none` models the panic when `byte_pos` is past the end of
the string or does not lie on a character boundary. -/
def insertAtByte : Text → Nat → Char → Option Text
  | cs, 0, c => some (c :: cs)
  | [], _ + 1, _ => none
  | c0 :: cs, b + 1, c =>
    if b + 1 < c0.utf8Size then none
    else (insertAtByte cs (b + 1 - c0.utf8Size) c).map fun t => c0 :: t

/-- Model of Rust `String::remove(byte_pos)`: removes the character starting at
byte offset `byte_pos`; `none` models the panic when the offset is at or past
the end of the string or does not lie on a character boundary. -/
def removeAtByte : Text → Nat → Option Text
  | [], _ => none
  | _ :: cs, 0 => some cs
  | c0 :: cs, b + 1 =>
    if b + 1 < c0.utf8Size then none
    else (removeAtByte cs (b + 1 - c0.utf8Size)).map fun t => c0 :: t

/-- The state behind the `CursorState` trait (src/ui/cursor.rs): the text
buffer reached through `get_text` and the character-offset cursor reached
through `get_cursor_pos` (in the app this is `InputState.current_input` and
`InputState.cursor_pos`). -/
structure CursorSt where
  text : Text
  cursor_pos : Nat
deriving DecidableEq

/-- `CursorState::add_char` (src/ui/cursor.rs:23-38): converts the character
position to a byte position (0 when at the start, the whole byte length when at
or past the end, otherwise the summed UTF-8 lengths of the preceding
characters), inserts there, and advances the cursor by one. The `Option`
models the panic a misaligned `String::insert` would raise. -/
def add_char (s : CursorSt) (c : Char) : Option CursorSt :=
  let char_pos := s.cursor_pos
  let chars := s.text
  let byte_pos :=
    if char_pos = 0 then 0
    else if char_pos ≥ chars.length then byteLen chars
    else byteLen (chars.take char_pos)
  (insertAtByte s.text byte_pos c).map fun t => ⟨t, char_pos + 1⟩

/-- `CursorState::remove_char_before_cursor` (src/ui/cursor.rs:41-49): no-op
when the cursor is at 0; otherwise computes the byte offset of the previous
character by summing UTF-8 lengths over the slice `chars[..char_pos - 1]` and
removes the character there. `none` models a panic: of the slice when
`char_pos - 1 > chars.len()`, or of `String::remove` when the byte offset is
at the end of the string. -/
def remove_char_before_cursor (s : CursorSt) : Option CursorSt :=
  if s.cursor_pos > 0 then
    if s.cursor_pos - 1 ≤ s.text.length then
      let byte_pos := byteLen (s.text.take (s.cursor_pos - 1))
      (removeAtByte s.text byte_pos).map fun t => ⟨t, s.cursor_pos - 1⟩
    else none
  else some s

/-- `CursorState::delete_char_after_cursor` (src/ui/cursor.rs:52-61): removes
the character at the cursor when one exists; it operates on the character
vector (`Vec<char>::remove` under a bounds guard), so it is total. -/
def delete_char_after_cursor (s : CursorSt) : CursorSt :=
  if s.cursor_pos < s.text.length then
    ⟨s.text.eraseIdx s.cursor_pos, s.cursor_pos⟩
  else s

/-- `CursorState::move_cursor_left` (src/ui/cursor.rs:64-69). -/
def move_cursor_left (s : CursorSt) : CursorSt :=
  if s.cursor_pos > 0 then ⟨s.text, s.cursor_pos - 1⟩ else s

/-- `CursorState::move_cursor_right` (src/ui/cursor.rs:72-78). -/
def move_cursor_right (s : CursorSt) : CursorSt :=
  if s.cursor_pos < s.text.length then ⟨s.text, s.cursor_pos + 1⟩ else s

/-- `CursorState::clear` (src/ui/cursor.rs:81-84). -/
def clearCursor (_s : CursorSt) : CursorSt := ⟨[], 0⟩

/-- `CursorState::create_cursor_text_spans` (src/ui/cursor.rs:87-140): the
three display segments — text before the cursor, the character under the
cursor (a synthetic block glyph at end of text), and the text after the
cursor. The cursor position is clamped with `min`. Colour styling is pure
presentation and is not modelled. -/
def create_cursor_text_spans (s : CursorSt) : Text × Text × Text :=
  let chars := s.text
  let text_len := chars.length
  let safe_cursor_pos := min s.cursor_pos text_len
  let before := chars.take safe_cursor_pos
  if safe_cursor_pos ≥ text_len then
    (before, ['█'], [])
  else
    (before, (chars.drop safe_cursor_pos).take 1, chars.drop (safe_cursor_pos + 1))

/-- The cursor invariant of §3 of the spec: `0 ≤ cursor_position ≤
char_count(text)` (the lower bound is free over `Nat`). -/
def cursorInv (s : CursorSt) : Prop := s.cursor_pos ≤ s.text.length

instance (s : CursorSt) : Decidable (cursorInv s) :=
  inferInstanceAs (Decidable (s.cursor_pos ≤ s.text.length))

/-- The editor operations quantified over in §8 of the spec, as dispatched by
the popup key handlers. -/
inductive EditOp where
  | insert (c : Char)
  | delete_before
  | delete_after
  | move_left
  | move_right
deriving DecidableEq

/-- One editor step; `none` models a panic of the underlying string
operation. -/
def stepEdit (s : CursorSt) : EditOp → Option CursorSt
  | .insert c => add_char s c
  | .delete_before => remove_char_before_cursor s
  | .delete_after => some (delete_char_after_cursor s)
  | .move_left => some (move_cursor_left s)
  | .move_right => some (move_cursor_right s)

/-- Run a finite sequence of editor operations, stopping at the first panic. -/
def runEdits (s : CursorSt) : List EditOp → Option CursorSt
  | [] => some s
  | op :: ops => (stepEdit s op).bind fun s2 => runEdits s2 ops

/-- The invariant lifted to a possibly-panicking result: no step panicked and
the resulting state satisfies the cursor invariant. -/
def cursorInvO : Option CursorSt → Prop
  | some s => cursorInv s
  | none => False

instance : (o : Option CursorSt) → Decidable (cursorInvO o)
  | some s => inferInstanceAs (Decidable (cursorInv s))
  | none => isFalse fun h => h

instance {e a : Type} [DecidableEq e] [DecidableEq a] : DecidableEq (Except e a) :=
  fun x y =>
    match x, y with
    | .error u, .error v =>
      if h : u = v then isTrue (congrArg Except.error h)
      else isFalse fun hc => h (Except.error.inj hc)
    | .error _, .ok _ => isFalse fun hc => Except.noConfusion hc
    | .ok _, .error _ => isFalse fun hc => Except.noConfusion hc
    | .ok u, .ok v =>
      if h : u = v then isTrue (congrArg Except.ok h)
      else isFalse fun hc => h (Except.ok.inj hc)

/-- Modelled from the spec: `TodoList` (src/db/models.rs is not under src/) —
an ordered entity `{ id, name, position }` (§3); only the fields the control
layer reads are carried. -/
structure TodoList where
  id : Int
  name : String
deriving DecidableEq

/-- Modelled from the spec: `TodoItem` (src/db/models.rs is not under src/) —
an ordered item entity with a `done` flag (§3). -/
structure TodoItem where
  id : Int
  name : String
  is_done : Bool
deriving DecidableEq

/-- Modelled from the spec: `UIItem` (src/db/models.rs is not under src/) —
the display wrapper around a `TodoItem`, as read by
`ItemsComponent::style_item` (src/ui/components/items.rs:17). -/
structure UIItem where
  item : TodoItem
deriving DecidableEq

/-- Modelled from the spec: `UIList` (src/db/models.rs is not under src/) —
"owns a TodoList plus its materialized ordered item collection and its own
SelectionIndex (`item_state`)" (§3). `item_state` models the selection stored
in a ratatui `ListState` (`selected()` / `select(..)`). -/
structure UIList where
  list : TodoList
  items : List UIItem
  item_state : Option Nat
deriving DecidableEq

/-- Modelled from the spec: `UIList::update_items` (src/db/models.rs is not
under src/) re-fetches the item collection of the list from persistence after
a write (§3: "always re-fetches the affected collection from persistence
after a write"). `fetched` is the collaborator's result; on failure the
in-memory items are untouched and the error propagates. -/
def UIList.update_items (l : UIList) (fetched : Except String (List UIItem)) :
    UIList × Except String Unit :=
  match fetched with
  | .error e => (l, .error e)
  | .ok its => ({ l with items := its }, .ok ())

/-- `ListsComponent` (src/ui/components/lists.rs:15): the collection of
`UIList` plus the lists' selection (`list_state` models the selection stored
in a ratatui `ListState`). -/
structure ListsComponent where
  lists : List UIList
  list_state : Option Nat
deriving DecidableEq

/-- `ListsComponent::new` (src/ui/components/lists.rs:27): empty collection,
default (empty) selection state. -/
def ListsComponent.new : ListsComponent := ⟨[], none⟩

/-- `ListsComponent::load_lists` (src/ui/components/lists.rs:35): replaces the
in-memory lists with the collection fetched from the database (`fetched` is
the collaborator result of `UIList::get_all`); on failure the `?` operator
propagates the error before the assignment, leaving the lists untouched. -/
def ListsComponent.load_lists (c : ListsComponent)
    (fetched : Except String (List UIList)) : ListsComponent × Except String Unit :=
  match fetched with
  | .error e => (c, .error e)
  | .ok ls => ({ c with lists := ls }, .ok ())

/-- `ListsComponent::refresh_lists` (src/ui/components/lists.rs:74-88): reload
from the database, then "Restore selection if it was set and still valid":
keep a previous index that is still in range, clamp to the last index when the
new collection is non-empty, and otherwise fall through (no `select` call). -/
def ListsComponent.refresh_lists (c : ListsComponent)
    (fetched : Except String (List UIList)) : ListsComponent × Except String Unit :=
  let selected_index := c.list_state
  match ListsComponent.load_lists c fetched with
  | (c2, .error e) => (c2, .error e)
  | (c2, .ok _) =>
    match selected_index with
    | some index =>
      if index < c2.lists.length then
        ({ c2 with list_state := some index }, .ok ())
      else if c2.lists.isEmpty = false then
        ({ c2 with list_state := some (c2.lists.length - 1) }, .ok ())
      else
        (c2, .ok ())
    | none => (c2, .ok ())

/-- `ListsComponent::move_selected_list_up` (src/ui/components/lists.rs:91-108):
persist the swap (`moveR` is `list.move_up`'s result), refresh (which repairs
the selection), then select `i - 1` when `i > 0`. The outer `Option` models
the panic of `lists_component.lists[i]` on an out-of-range stored selection. -/
def move_selected_list_up (c : ListsComponent) (moveR : Except String Unit)
    (fetched : Except String (List UIList)) :
    Option (ListsComponent × Except String Unit) :=
  match c.list_state with
  | none => some (c, .ok ())
  | some i =>
    if i < c.lists.length then
      match moveR with
      | .error e => some (c, .error e)
      | .ok _ =>
        match ListsComponent.refresh_lists c fetched with
        | (c2, .error e) => some (c2, .error e)
        | (c2, .ok _) =>
          if 0 < i then some ({ c2 with list_state := some (i - 1) }, .ok ())
          else some (c2, .ok ())
    else none

/-- `ListsComponent::move_selected_list_down` (src/ui/components/lists.rs:111-128):
persist the swap, refresh, then select `i + 1` when `i + 1` is still in range
of the refreshed collection. -/
def move_selected_list_down (c : ListsComponent) (moveR : Except String Unit)
    (fetched : Except String (List UIList)) :
    Option (ListsComponent × Except String Unit) :=
  match c.list_state with
  | none => some (c, .ok ())
  | some i =>
    if i < c.lists.length then
      match moveR with
      | .error e => some (c, .error e)
      | .ok _ =>
        match ListsComponent.refresh_lists c fetched with
        | (c2, .error e) => some (c2, .error e)
        | (c2, .ok _) =>
          if i + 1 < c2.lists.length then
            some ({ c2 with list_state := some (i + 1) }, .ok ())
          else some (c2, .ok ())
    else none

/-- `ListsComponent::delete_selected_list_static`
(src/ui/components/lists.rs:131-152): persist the deletion (`deleteR` is
`list.delete`'s result), reload via `load_lists`, then adjust the selection:
`None` when the collection became empty, clamp to the last index when the old
index fell off the end, otherwise leave the stored index in place. -/
def delete_selected_list_static (c : ListsComponent) (deleteR : Except String Unit)
    (fetched : Except String (List UIList)) :
    Option (ListsComponent × Except String Unit) :=
  match c.list_state with
  | none => some (c, .ok ())
  | some i =>
    if i < c.lists.length then
      match deleteR with
      | .error e => some (c, .error e)
      | .ok _ =>
        match ListsComponent.load_lists c fetched with
        | (c2, .error e) => some (c2, .error e)
        | (c2, .ok _) =>
          if c2.lists.isEmpty then
            some ({ c2 with list_state := none }, .ok ())
          else if c2.lists.length ≤ i then
            some ({ c2 with list_state := some (c2.lists.length - 1) }, .ok ())
          else some (c2, .ok ())
    else none

/-- `ItemsComponent::delete_selected_item` (src/ui/components/items.rs:85-101):
persist the deletion of the selected item, re-fetch the items, then adjust the
selection exactly as the lists component does. The outer `Option` models the
panic of `ui_list.items[j]` on an out-of-range stored selection. -/
def delete_selected_item (l : UIList) (deleteR : Except String Unit)
    (fetched : Except String (List UIItem)) : Option (UIList × Except String Unit) :=
  match l.item_state with
  | none => some (l, .ok ())
  | some j =>
    if j < l.items.length then
      match deleteR with
      | .error e => some (l, .error e)
      | .ok _ =>
        match l.update_items fetched with
        | (l2, .error e) => some (l2, .error e)
        | (l2, .ok _) =>
          if l2.items.isEmpty then
            some ({ l2 with item_state := none }, .ok ())
          else if l2.items.length ≤ j then
            some ({ l2 with item_state := some (l2.items.length - 1) }, .ok ())
          else some (l2, .ok ())
    else none

/-- `ItemsComponent::move_selected_item_up` (src/ui/components/items.rs:104-118):
persist the swap, re-fetch the items, then select `j - 1` when `j > 0`. -/
def move_selected_item_up (l : UIList) (moveR : Except String Unit)
    (fetched : Except String (List UIItem)) : Option (UIList × Except String Unit) :=
  match l.item_state with
  | none => some (l, .ok ())
  | some j =>
    if j < l.items.length then
      match moveR with
      | .error e => some (l, .error e)
      | .ok _ =>
        match l.update_items fetched with
        | (l2, .error e) => some (l2, .error e)
        | (l2, .ok _) =>
          if 0 < j then some ({ l2 with item_state := some (j - 1) }, .ok ())
          else some (l2, .ok ())
    else none

/-- `ItemsComponent::move_selected_item_down` (src/ui/components/items.rs:121-135):
persist the swap, re-fetch the items, then select `j + 1` when `j + 1` is
still in range of the re-fetched collection. -/
def move_selected_item_down (l : UIList) (moveR : Except String Unit)
    (fetched : Except String (List UIItem)) : Option (UIList × Except String Unit) :=
  match l.item_state with
  | none => some (l, .ok ())
  | some j =>
    if j < l.items.length then
      match moveR with
      | .error e => some (l, .error e)
      | .ok _ =>
        match l.update_items fetched with
        | (l2, .error e) => some (l2, .error e)
        | (l2, .ok _) =>
          if j + 1 < l2.items.length then
            some ({ l2 with item_state := some (j + 1) }, .ok ())
          else some (l2, .ok ())
    else none

/-- `DBConfig` (src/db/config.rs:25). -/
structure DBConfig where
  name : String
  connection_str : String
deriving DecidableEq

/-- `Theme` (src/db/config.rs:31). -/
structure Theme where
  background : String
  foreground : String
  highlight : String
deriving DecidableEq

/-- `Config` (src/db/config.rs:16). -/
structure Config where
  default : String
  dbs : List DBConfig
  colours : Theme
deriving DecidableEq

/-- `CurrentScreen` (src/app/state.rs:21). -/
inductive CurrentScreen where
  | Main
  | AddList
  | ModifyList
  | AddItem
  | ModifyItem
  | ChangeDB
  | AddDB
deriving DecidableEq

/-- `InputState` (src/ui/components, re-exported in src/app/state.rs): the
cursor-edited popup input. -/
structure InputState where
  current_input : String
  cursor_pos : Nat
  is_modifying : Bool
deriving DecidableEq

/-- `App` (src/app/state.rs:39). The sqlx `SqlitePool` is opaque to the
control layer and is modelled by a numeric handle. -/
structure App where
  config : Config
  current_db_config : DBConfig
  current_screen : CurrentScreen
  pool : Nat
  lists_component : ListsComponent
  input_state : InputState
  selected_db_index : Nat
  exit : Bool
deriving DecidableEq

/-- `App::select_previous_db` (src/app/state.rs:270-279): no-op on an empty
configured database list; from 0 wrap to the last index, otherwise step
down. -/
def App.select_previous_db (a : App) : App :=
  if a.config.dbs.isEmpty then a
  else if a.selected_db_index = 0 then
    { a with selected_db_index := a.config.dbs.length - 1 }
  else { a with selected_db_index := a.selected_db_index - 1 }

/-- `App::select_next_db` (src/app/state.rs:281-287): no-op on an empty
configured database list; otherwise step up modulo the list length. -/
def App.select_next_db (a : App) : App :=
  if a.config.dbs.isEmpty then a
  else { a with selected_db_index := (a.selected_db_index + 1) % a.config.dbs.length }

/-- `App::switch_to_selected_db` (src/app/state.rs:290-312): look up the
selected database (silent no-op when the index is out of range of the
registry), connect (`initDb` models `init_db` applied to the connection
string), then — only after a successful connection — replace the current
database config and pool, replace the lists component by a fresh empty one,
load the new database's lists (`getAll` models `UIList::get_all` on the new
pool), and finally return to the main screen. -/
def App.switch_to_selected_db (a : App) (initDb : String → Except String Nat)
    (getAll : Nat → Except String (List UIList)) : App × Except String Unit :=
  match a.config.dbs.get? a.selected_db_index with
  | none => (a, .ok ())
  | some selected_db =>
    match initDb selected_db.connection_str with
    | .error e => (a, .error ("Failed to connect to database: " ++ e))
    | .ok new_pool =>
      let a2 := { a with
        current_db_config := selected_db
        pool := new_pool
        lists_component := ListsComponent.new }
      match ListsComponent.load_lists a2.lists_component (getAll a2.pool) with
      | (lc, .error e) =>
        ({ a2 with lists_component := lc }, .error ("Failed to load lists: " ++ e))
      | (lc, .ok _) =>
        ({ a2 with lists_component := lc, current_screen := .Main }, .ok ())

/-- `App::set_selected_db_as_default` (src/app/state.rs:315-331): look up the
selected database (silent no-op when out of range), set it as the in-memory
default, then write the config file (`configDir` models `dirs::config_dir()`,
`writeCfg` the `Config::write` result for the value written). -/
def App.set_selected_db_as_default (a : App) (configDir : Option String)
    (writeCfg : Config → Except String Unit) : App × Except String Unit :=
  match a.config.dbs.get? a.selected_db_index with
  | none => (a, .ok ())
  | some selected_db =>
    let a2 := { a with config := { a.config with default := selected_db.name } }
    match configDir with
    | none => (a2, .error "Could not find config directory")
    | some _ =>
      match writeCfg a2.config with
      | .error e => (a2, .error ("Failed to save config: " ++ e))
      | .ok _ => (a2, .ok ())

/-- `App::create_new_database` (src/app/state.rs:115-169): resolve the data
directory, create it, build the `sqlite:` connection string, initialize the
new database, push the new entry onto `config.dbs`, optionally set it as the
default, write the config file, and finally point `selected_db_index` at the
new entry. Oracles: `dataDir` models `dirs::data_dir()`, `createDir` the
`create_dir_all` result, `initDb` the `init_db` result, `configDir`
`dirs::config_dir()`, and `writeCfg` the `Config::write` result for the
config value written. -/
def App.create_new_database (a : App) (db_name : String) (set_as_default : Bool)
    (dataDir : Option String) (createDir : Except String Unit)
    (initDb : String → Except String Nat) (configDir : Option String)
    (writeCfg : Config → Except String Unit) : App × Except String Unit :=
  match dataDir with
  | none => (a, .error "Could not find data directory")
  | some d =>
    match createDir with
    | .error e => (a, .error ("Failed to create data directory: " ++ e))
    | .ok _ =>
      let path := d ++ "/judo/" ++ db_name ++ ".db"
      let connection_str := "sqlite:" ++ path
      let new_db_config : DBConfig := ⟨db_name, connection_str⟩
      match initDb connection_str with
      | .error e => (a, .error ("Failed to initialize new database: " ++ e))
      | .ok _ =>
        let a2 := { a with config :=
          { a.config with dbs := a.config.dbs ++ [new_db_config] } }
        let a3 :=
          if set_as_default then
            { a2 with config := { a2.config with default := db_name } }
          else a2
        match configDir with
        | none => (a3, .error "Could not find config directory")
        | some _ =>
          match writeCfg a3.config with
          | .error e => (a3, .error ("Failed to save config: " ++ e))
          | .ok _ =>
            ({ a3 with selected_db_index := a3.config.dbs.length - 1 }, .ok ())

/-- The configuration value `create_new_database` has installed in memory by
the time it attempts the registry write: the new entry appended, and the
default renamed when requested. Used to state what a failed write leaves
behind. -/
def configAfterCreate (cfg : Config) (db_name d : String) (set_as_default : Bool) :
    Config :=
  let cfg1 := { cfg with
    dbs := cfg.dbs ++ [⟨db_name, "sqlite:" ++ (d ++ "/judo/" ++ db_name ++ ".db")⟩] }
  if set_as_default then { cfg1 with default := db_name } else cfg1

/-- Concrete sample database entry used by witnesses and counterexamples. -/
def dbA : DBConfig := ⟨"alpha", "sqlite:alpha.db"⟩

/-- Second concrete sample database entry. -/
def dbB : DBConfig := ⟨"beta", "sqlite:beta.db"⟩

/-- The default theme of src/db/config.rs. -/
def sampleTheme : Theme := ⟨"#002626", "#FCF1D5", "#FFA69E"⟩

/-- Concrete sample to-do list with no items. -/
def listL : UIList := ⟨⟨1, "groceries"⟩, [], none⟩

/-- Concrete sample items. -/
def itemX : UIItem := ⟨⟨10, "milk", false⟩⟩

/-- Second concrete sample item. -/
def itemY : UIItem := ⟨⟨11, "eggs", true⟩⟩

/-- Concrete sample app connected to `dbA` with one loaded, selected list. -/
def appA : App :=
  ⟨⟨"alpha", [dbA], sampleTheme⟩, dbA, .Main, 0, ⟨[listL], some 0⟩,
    ⟨"", 0, false⟩, 0, false⟩

/-- Concrete sample app with two configured databases, the second selected in
the DB selector. -/
def appB : App :=
  ⟨⟨"alpha", [dbA, dbB], sampleTheme⟩, dbA, .ChangeDB, 0, ⟨[], none⟩,
    ⟨"", 0, false⟩, 1, false⟩

theorem byteLen_nil : byteLen [] = 0 := rfl

theorem byteLen_cons (c : Char) (cs : Text) :
    byteLen (c :: cs) = c.utf8Size + byteLen cs := by
  simp [byteLen]

/-- Inserting at the byte offset of the `k`-th character boundary splices the
new character in at character index `k`. -/
theorem insertAtByte_boundary (c : Char) (cs : Text) (k : Nat) (h : k ≤ cs.length) :
    insertAtByte cs (byteLen (cs.take k)) c = some (cs.take k ++ c :: cs.drop k) := by
  induction cs generalizing k with
  | nil =>
    have hk : k = 0 := by simpa using h
    subst hk
    simp [insertAtByte, byteLen]
  | cons c0 cs ih =>
    cases k with
    | zero => simp [insertAtByte, byteLen]
    | succ k =>
      have hpos : 0 < c0.utf8Size := Char.utf8Size_pos c0
      have hk : k ≤ cs.length := by simpa using h
      rw [List.take_succ_cons, byteLen_cons]
      obtain ⟨b, hb⟩ : ∃ b, c0.utf8Size + byteLen (cs.take k) = b + 1 :=
        ⟨c0.utf8Size + byteLen (cs.take k) - 1, by omega⟩
      rw [hb]
      simp only [insertAtByte]
      rw [if_neg (by omega)]
      have hsub : b + 1 - c0.utf8Size = byteLen (cs.take k) := by omega
      rw [hsub, ih k hk]
      simp

/-- Removing at the byte offset of the `k`-th character boundary removes the
character at index `k`. -/
theorem removeAtByte_boundary (cs : Text) (k : Nat) (h : k < cs.length) :
    removeAtByte cs (byteLen (cs.take k)) = some (cs.eraseIdx k) := by
  induction cs generalizing k with
  | nil => simp at h
  | cons c0 cs ih =>
    cases k with
    | zero => simp [removeAtByte, byteLen]
    | succ k =>
      have hpos : 0 < c0.utf8Size := Char.utf8Size_pos c0
      have hk : k < cs.length := by simpa using h
      rw [List.take_succ_cons, byteLen_cons]
      obtain ⟨b, hb⟩ : ∃ b, c0.utf8Size + byteLen (cs.take k) = b + 1 :=
        ⟨c0.utf8Size + byteLen (cs.take k) - 1, by omega⟩
      rw [hb]
      simp only [removeAtByte]
      rw [if_neg (by omega)]
      have hsub : b + 1 - c0.utf8Size = byteLen (cs.take k) := by omega
      rw [hsub, ih k hk]
      simp

/-- Removing at the total byte length (one past the last character) panics. -/
theorem removeAtByte_byteLen (cs : Text) : removeAtByte cs (byteLen cs) = none := by
  induction cs with
  | nil => simp [removeAtByte, byteLen]
  | cons c0 cs ih =>
    have hpos : 0 < c0.utf8Size := Char.utf8Size_pos c0
    rw [byteLen_cons]
    obtain ⟨b, hb⟩ : ∃ b, c0.utf8Size + byteLen cs = b + 1 :=
      ⟨c0.utf8Size + byteLen cs - 1, by omega⟩
    rw [hb]
    simp only [removeAtByte]
    rw [if_neg (by omega)]
    have hsub : b + 1 - c0.utf8Size = byteLen cs := by omega
    rw [hsub, ih]
    simp

/-- Under the cursor invariant, `add_char` splices the character in at the
cursor's character index and advances the cursor. -/
theorem add_char_eq (s : CursorSt) (c : Char) (h : s.cursor_pos ≤ s.text.length) :
    add_char s c =
      some ⟨s.text.take s.cursor_pos ++ c :: s.text.drop s.cursor_pos, s.cursor_pos + 1⟩ := by
  simp only [add_char]
  split_ifs with h0 h1
  · simp only [h0]
    have hb := insertAtByte_boundary c s.text 0 (Nat.zero_le _)
    simp only [List.take_zero, byteLen_nil] at hb
    rw [hb]
    simp
  · have heq : s.cursor_pos = s.text.length := le_antisymm h h1
    have hb := insertAtByte_boundary c s.text s.text.length (le_refl _)
    rw [List.take_length] at hb
    rw [heq, hb]
    simp [List.take_length]
  · rw [insertAtByte_boundary c s.text s.cursor_pos h]
    simp

/-- `add_char` never panics, at any cursor position (out-of-range cursors fall
into the `char_pos >= chars.len()` branch, which clamps the byte offset to the
end of the string). -/
theorem add_char_isSome (s : CursorSt) (c : Char) : (add_char s c).isSome = true := by
  by_cases h : s.cursor_pos ≤ s.text.length
  · rw [add_char_eq s c h]
    rfl
  · simp only [add_char]
    rw [if_neg (by omega), if_pos (by omega)]
    have hb := insertAtByte_boundary c s.text s.text.length (le_refl _)
    rw [List.take_length] at hb
    rw [hb]
    rfl

/-- With the cursor in `[1, char_count]`, backspace removes exactly the
character before the cursor and decrements the cursor. -/
theorem remove_char_before_eq (s : CursorSt) (h0 : 0 < s.cursor_pos)
    (h : s.cursor_pos ≤ s.text.length) :
    remove_char_before_cursor s =
      some ⟨s.text.eraseIdx (s.cursor_pos - 1), s.cursor_pos - 1⟩ := by
  simp only [remove_char_before_cursor]
  rw [if_pos h0, if_pos (by omega)]
  rw [removeAtByte_boundary s.text (s.cursor_pos - 1) (by omega)]
  simp

/-- Backspace at cursor 0 is a no-op. -/
theorem remove_char_before_zero (s : CursorSt) (h0 : s.cursor_pos = 0) :
    remove_char_before_cursor s = some s := by
  simp [remove_char_before_cursor, h0]

/-- Backspace with the cursor strictly past the end of the text panics: either
the slice `chars[..char_pos - 1]` is out of range, or `String::remove` is
called at the total byte length. -/
theorem remove_char_before_none (s : CursorSt) (h : s.text.length < s.cursor_pos) :
    remove_char_before_cursor s = none := by
  simp only [remove_char_before_cursor]
  rw [if_pos (by omega)]
  by_cases h2 : s.cursor_pos - 1 ≤ s.text.length
  · rw [if_pos h2]
    have heq : s.cursor_pos - 1 = s.text.length := by omega
    rw [heq, List.take_length, removeAtByte_byteLen]
    rfl
  · rw [if_neg h2]

/-- Every single editor step that does not panic preserves the cursor
invariant, and within the invariant only backspace past the end could panic —
which the invariant rules out. -/
theorem stepEdit_preserves (s : CursorSt) (op : EditOp) (h : cursorInv s) :
    cursorInvO (stepEdit s op) := by
  have hle : s.cursor_pos ≤ s.text.length := h
  cases op with
  | insert c =>
    simp only [stepEdit]
    rw [add_char_eq s c h]
    simp only [cursorInvO, cursorInv]
    simp only [List.length_append, List.length_take, List.length_cons, List.length_drop]
    omega
  | delete_before =>
    simp only [stepEdit]
    rcases Nat.eq_zero_or_pos s.cursor_pos with h0 | h0
    · rw [remove_char_before_zero s h0]
      exact h
    · rw [remove_char_before_eq s h0 h]
      simp only [cursorInvO, cursorInv]
      rw [List.length_eraseIdx]
      have hlt : s.cursor_pos - 1 < s.text.length := by omega
      simp only [hlt, if_pos]
      omega
  | delete_after =>
    simp only [stepEdit, delete_char_after_cursor]
    split_ifs with h1
    · simp only [cursorInvO, cursorInv]
      rw [List.length_eraseIdx]
      simp only [h1, if_pos]
      omega
    · exact h
  | move_left =>
    simp only [stepEdit, move_cursor_left]
    split_ifs with h1
    · simp only [cursorInvO, cursorInv]
      omega
    · exact h
  | move_right =>
    simp only [stepEdit, move_cursor_right]
    split_ifs with h1
    · simp only [cursorInvO, cursorInv]
      omega
    · exact h

/-- Folding `stepEdit` over any operation sequence from an invariant state
never panics and lands in an invariant state. -/
theorem runEdits_preserves (ops : List EditOp) (s : CursorSt) (h : cursorInv s) :
    cursorInvO (runEdits s ops) := by
  induction ops generalizing s with
  | nil => exact h
  | cons op ops ih =>
    simp only [runEdits]
    have h1 := stepEdit_preserves s op h
    cases hs : stepEdit s op with
    | none =>
      rw [hs] at h1
      exact h1.elim
    | some s2 =>
      rw [hs] at h1
      simpa using ih s2 h1

/-- C3 counterexample: the claim says every `CursorEditor` operation is
infallible even for cursor positions outside `[0, char_count(text)]`, but
`remove_char_before_cursor` on empty text with the cursor at 1 calls
`String::remove(0)` on an empty string, which panics — modelled here by the
embedding returning `none`. -/
theorem C3_counterexample :
    remove_char_before_cursor ⟨[], 1⟩ = none := by decide

/-- C3 (amended): `add_char`, `delete_char_after_cursor`, `move_cursor_left`,
`move_cursor_right`, `clearCursor` and `create_cursor_text_spans` are total
functions of the state (out-of-range cursors are clamped or ignored), and
`add_char` in particular never panics at any cursor position; but
`remove_char_before_cursor` is panic-free exactly when the cursor is 0 or at
most the character count — backspace with the cursor strictly past the end of
the text panics instead of being ignored. -/
theorem C3_ops_infallibility (s : CursorSt) (c : Char) :
    (add_char s c).isSome = true ∧
    ((remove_char_before_cursor s).isSome = true ↔
      (s.cursor_pos = 0 ∨ s.cursor_pos ≤ s.text.length)) := by
  refine ⟨add_char_isSome s c, ?_, ?_⟩
  · intro hs
    by_contra hcon
    push_neg at hcon
    have h2 : s.text.length < s.cursor_pos := by omega
    rw [remove_char_before_none s h2] at hs
    simp at hs
  · intro hd
    rcases Nat.eq_zero_or_pos s.cursor_pos with h0 | h0
    · rw [remove_char_before_zero s h0]
      rfl
    · have h1 : s.cursor_pos ≤ s.text.length := by omega
      rw [remove_char_before_eq s h0 h1]
      rfl

/-- C4: starting from any editor state satisfying the cursor invariant
`cursor_position ≤ char_count(text)`, running any finite sequence of
insert / delete-before / delete-after / move-left / move-right steps never
panics and re-establishes the invariant; since every prefix of the sequence
is itself such a sequence, the invariant holds after every step. -/
theorem C4_cursor_invariant_sequences (s : CursorSt) (h : cursorInv s)
    (ops : List EditOp) : cursorInvO (runEdits s ops) :=
  runEdits_preserves ops s h

theorem C4_cursor_invariant_sequences_witness :
    cursorInv ⟨['a', 'b'], 1⟩ ∧
      cursorInvO (runEdits ⟨['a', 'b'], 1⟩
        [.insert 'é', .move_left, .delete_after, .delete_before, .move_right]) :=
  ⟨by decide, C4_cursor_invariant_sequences ⟨['a', 'b'], 1⟩ (by decide) _⟩

/-- C8: for any valid cursor position, `add_char` splices the new character in
between the characters before and after the cursor, increasing the character
count and the cursor by exactly one, and the byte offset it uses — the sum of
the UTF-8 lengths of the preceding characters — is exactly the boundary at
which `String::insert` produces that character sequence (round-trip of
character content through the byte-level insertion). -/
theorem C8_insert_splice (s : CursorSt) (c : Char) (h : cursorInv s) :
    add_char s c =
      some ⟨s.text.take s.cursor_pos ++ c :: s.text.drop s.cursor_pos,
        s.cursor_pos + 1⟩ ∧
    (s.text.take s.cursor_pos ++ c :: s.text.drop s.cursor_pos).length =
      s.text.length + 1 ∧
    insertAtByte s.text (byteLen (s.text.take s.cursor_pos)) c =
      some (s.text.take s.cursor_pos ++ c :: s.text.drop s.cursor_pos) := by
  have hle : s.cursor_pos ≤ s.text.length := h
  refine ⟨add_char_eq s c hle, ?_, insertAtByte_boundary c s.text s.cursor_pos hle⟩
  simp only [List.length_append, List.length_take, List.length_cons,
    List.length_drop]
  omega

theorem C8_insert_splice_witness :
    cursorInv ⟨['c', 'a', 'f', 'é'], 2⟩ ∧
      add_char ⟨['c', 'a', 'f', 'é'], 2⟩ 'é' =
        some ⟨['c', 'a', 'é', 'f', 'é'], 3⟩ := by
  refine ⟨by decide, ?_⟩
  have h := (C8_insert_splice ⟨['c', 'a', 'f', 'é'], 2⟩ 'é' (by decide)).1
  exact h.trans (by decide)

/-- C9: within the cursor invariant, `remove_char_before_cursor` is a no-op at
cursor 0 and otherwise removes exactly the character at index
`cursor_pos - 1` (located through the char-to-byte offset translation) while
decrementing the cursor. -/
theorem C9_delete_before_cursor (s : CursorSt) (h : cursorInv s) :
    (s.cursor_pos = 0 → remove_char_before_cursor s = some s) ∧
    (0 < s.cursor_pos →
      remove_char_before_cursor s =
        some ⟨s.text.eraseIdx (s.cursor_pos - 1), s.cursor_pos - 1⟩) :=
  ⟨fun h0 => remove_char_before_zero s h0,
   fun h0 => remove_char_before_eq s h0 h⟩

theorem C9_delete_before_cursor_witness :
    cursorInv ⟨['c', 'a', 'f', 'é'], 4⟩ ∧
      remove_char_before_cursor ⟨['c', 'a', 'f', 'é'], 4⟩ =
        some ⟨['c', 'a', 'f'], 3⟩ := by
  refine ⟨by decide, ?_⟩
  have h := (C9_delete_before_cursor ⟨['c', 'a', 'f', 'é'], 4⟩ (by decide)).2 (by decide)
  exact h.trans (by decide)

/-- A successful refresh with a previously stored index `i` reloads the
collection and repairs the selection: keep `i` when still in range, clamp to
the last index when the new collection is non-empty, and otherwise leave the
stale index in place (the source's `if let` chain has no final `else`). -/
theorem refresh_lists_ok (c : ListsComponent) (ls : List UIList) (i : Nat)
    (h : c.list_state = some i) :
    ListsComponent.refresh_lists c (.ok ls) =
      (⟨ls, if i < ls.length then some i
            else if 0 < ls.length then some (ls.length - 1)
            else some i⟩, .ok ()) := by
  simp only [ListsComponent.refresh_lists, ListsComponent.load_lists, h]
  by_cases h1 : i < ls.length
  · simp [h1]
  · cases ls with
    | nil => simp [h1, h]
    | cons x xs =>
      have h2 : ¬ i < xs.length + 1 := by simpa using h1
      simp [h2]

/-- C2 counterexample: refreshing with previously selected index 0 and an
empty reloaded collection leaves the stale selection `some 0` in place
instead of setting it to `None` as the claim requires. -/
theorem C2_counterexample :
    (ListsComponent.refresh_lists ⟨[listL], some 0⟩ (.ok [])).1.list_state =
      some 0 := by
  decide

/-- C2 (amended): after a successful refresh with an explicit previous index
`i`: if `i < new_length` it is kept; else if `new_length > 0` it is clamped
to `new_length - 1`; otherwise (empty reloaded collection) the stale previous
index is left in place unchanged — it is not set to `None`. -/
theorem C2_refresh_selection (c : ListsComponent) (ls : List UIList) (i : Nat)
    (h : c.list_state = some i) :
    (ListsComponent.refresh_lists c (.ok ls)).1.lists = ls ∧
    (ListsComponent.refresh_lists c (.ok ls)).1.list_state =
      (if i < ls.length then some i
       else if 0 < ls.length then some (ls.length - 1)
       else some i) := by
  rw [refresh_lists_ok c ls i h]
  exact ⟨rfl, rfl⟩

theorem C2_refresh_selection_witness :
    (⟨[listL], some 5⟩ : ListsComponent).list_state = some 5 ∧
      (ListsComponent.refresh_lists ⟨[listL], some 5⟩ (.ok [listL])).1.list_state =
        some 0 := by
  refine ⟨rfl, ?_⟩
  have h := (C2_refresh_selection ⟨[listL], some 5⟩ [listL] 5 rfl).2
  exact h.trans (by decide)

/-- C6: after a successful delete of the selected entity at index `i` — for
the item collection of a list and for the lists collection alike — the
selection is `None` when the reloaded collection is empty, clamped to
`new_length - 1` when `i` fell off the end, and kept at `i` otherwise; in
particular deleting at the last valid index of an `N`-entity collection
(`N > 1`, reload of length `N - 1`) yields `N - 2`, and deleting the sole
entity yields `None`. -/
theorem C6_delete_selection (l : UIList) (j : Nat) (items2 : List UIItem)
    (c : ListsComponent) (i : Nat) (lists2 : List UIList)
    (hsel : l.item_state = some j) (hj : j < l.items.length)
    (hsel2 : c.list_state = some i) (hi : i < c.lists.length) :
    delete_selected_item l (.ok ()) (.ok items2) =
      some ({ l with items := items2, item_state :=
        (if items2.length = 0 then none
         else if items2.length ≤ j then some (items2.length - 1)
         else some j) }, .ok ()) ∧
    delete_selected_list_static c (.ok ()) (.ok lists2) =
      some ({ c with lists := lists2, list_state :=
        (if lists2.length = 0 then none
         else if lists2.length ≤ i then some (lists2.length - 1)
         else some i) }, .ok ()) ∧
    (j = l.items.length - 1 → 1 < l.items.length →
      items2.length = l.items.length - 1 →
      (delete_selected_item l (.ok ()) (.ok items2)).map (fun r => r.1.item_state) =
        some (some (l.items.length - 2))) ∧
    (l.items.length = 1 → items2 = [] →
      (delete_selected_item l (.ok ()) (.ok items2)).map (fun r => r.1.item_state) =
        some none) := by
  have hpart1 : delete_selected_item l (.ok ()) (.ok items2) =
      some ({ l with items := items2, item_state :=
        (if items2.length = 0 then none
         else if items2.length ≤ j then some (items2.length - 1)
         else some j) }, .ok ()) := by
    simp only [delete_selected_item, hsel, UIList.update_items]
    rw [if_pos hj]
    cases items2 with
    | nil => simp
    | cons x xs =>
      by_cases hc : xs.length + 1 ≤ j
      · simp [hc]
      · simp [hc, hsel]
  have hpart2 : delete_selected_list_static c (.ok ()) (.ok lists2) =
      some ({ c with lists := lists2, list_state :=
        (if lists2.length = 0 then none
         else if lists2.length ≤ i then some (lists2.length - 1)
         else some i) }, .ok ()) := by
    simp only [delete_selected_list_static, hsel2, ListsComponent.load_lists]
    rw [if_pos hi]
    cases lists2 with
    | nil => simp
    | cons x xs =>
      by_cases hc : xs.length + 1 ≤ i
      · simp [hc]
      · simp [hc, hsel2]
  refine ⟨hpart1, hpart2, ?_, ?_⟩
  · intro hj2 hN hlen
    rw [hpart1]
    have h1 : ¬ items2.length = 0 := by omega
    have h2 : items2.length ≤ j := by omega
    have h3 : items2.length - 1 = l.items.length - 2 := by omega
    simp [h1, h2, h3]
  · intro hN hnil
    subst hnil
    rw [hpart1]
    simp

theorem C6_delete_selection_witness :
    (⟨⟨1, "groceries"⟩, [itemX, itemY], some 1⟩ : UIList).item_state = some 1 ∧
      delete_selected_item ⟨⟨1, "groceries"⟩, [itemX, itemY], some 1⟩
          (.ok ()) (.ok [itemX]) =
        some (⟨⟨1, "groceries"⟩, [itemX], some 0⟩, .ok ()) := by
  refine ⟨rfl, ?_⟩
  have h := (C6_delete_selection ⟨⟨1, "groceries"⟩, [itemX, itemY], some 1⟩ 1 [itemX]
    ⟨[listL, listL], some 1⟩ 1 [listL] rfl (by decide) rfl (by decide)).1
  exact h.trans (by decide)

/-- C7: after a successful move — for the item collection of a list and for
the lists collection alike, with the reloaded collection the same length as
before — moving up from `i > 0` selects `i - 1` and moving down with
`i + 1 < length` selects `i + 1`; at the boundaries (`i = 0` up,
`i = length - 1` down) and when nothing is selected the selection is
unchanged. -/
theorem C7_move_selection (l : UIList) (j : Nat) (items2 : List UIItem)
    (c : ListsComponent) (i : Nat) (lists2 : List UIList)
    (mv : Except String Unit) (f : Except String (List UIItem))
    (g : Except String (List UIList))
    (hsel : l.item_state = some j) (hj : j < l.items.length)
    (hlen : items2.length = l.items.length)
    (hsel2 : c.list_state = some i) (hi : i < c.lists.length)
    (hlen2 : lists2.length = c.lists.length) :
    move_selected_item_up l (.ok ()) (.ok items2) =
      some ({ l with items := items2, item_state :=
        (if 0 < j then some (j - 1) else some j) }, .ok ()) ∧
    move_selected_item_down l (.ok ()) (.ok items2) =
      some ({ l with items := items2, item_state :=
        (if j + 1 < items2.length then some (j + 1) else some j) }, .ok ()) ∧
    move_selected_list_up c (.ok ()) (.ok lists2) =
      some ({ c with lists := lists2, list_state :=
        (if 0 < i then some (i - 1) else some i) }, .ok ()) ∧
    move_selected_list_down c (.ok ()) (.ok lists2) =
      some ({ c with lists := lists2, list_state :=
        (if i + 1 < lists2.length then some (i + 1) else some i) }, .ok ()) ∧
    move_selected_item_up { l with item_state := none } mv f =
      some ({ l with item_state := none }, .ok ()) ∧
    move_selected_item_down { l with item_state := none } mv f =
      some ({ l with item_state := none }, .ok ()) ∧
    move_selected_list_up { c with list_state := none } mv g =
      some ({ c with list_state := none }, .ok ()) ∧
    move_selected_list_down { c with list_state := none } mv g =
      some ({ c with list_state := none }, .ok ()) := by
  have hils : i < lists2.length := by omega
  refine ⟨?_, ?_, ?_, ?_, ?_, ?_, ?_, ?_⟩
  · simp only [move_selected_item_up, hsel, UIList.update_items]
    rw [if_pos hj]
    by_cases h0 : 0 < j
    · simp [h0]
    · simp [h0, hsel]
  · simp only [move_selected_item_down, hsel, UIList.update_items]
    rw [if_pos hj]
    by_cases h0 : j + 1 < items2.length
    · simp [h0]
    · simp [h0, hsel]
  · simp only [move_selected_list_up, hsel2]
    rw [if_pos hi, refresh_lists_ok c lists2 i hsel2, if_pos hils]
    by_cases h0 : 0 < i
    · simp [h0]
    · simp [h0, hsel2]
  · simp only [move_selected_list_down, hsel2]
    rw [if_pos hi, refresh_lists_ok c lists2 i hsel2, if_pos hils]
    by_cases h0 : i + 1 < lists2.length
    · simp [h0]
    · simp [h0, hsel2]
  · simp [move_selected_item_up]
  · simp [move_selected_item_down]
  · simp [move_selected_list_up]
  · simp [move_selected_list_down]

theorem C7_move_selection_witness :
    (⟨⟨1, "groceries"⟩, [itemX, itemY], some 1⟩ : UIList).item_state = some 1 ∧
      move_selected_item_up ⟨⟨1, "groceries"⟩, [itemX, itemY], some 1⟩
          (.ok ()) (.ok [itemY, itemX]) =
        some (⟨⟨1, "groceries"⟩, [itemY, itemX], some 0⟩, .ok ()) := by
  refine ⟨rfl, ?_⟩
  have h := (C7_move_selection ⟨⟨1, "groceries"⟩, [itemX, itemY], some 1⟩ 1
    [itemY, itemX] ⟨[listL, listL], some 1⟩ 1 [listL, listL] (.ok ()) (.ok [])
    (.ok []) rfl (by decide) (by decide) rfl (by decide) (by decide)).1
  exact h.trans (by decide)

/-- C10: the database selector wraps around cyclically — on a non-empty
configured database list `select_next_db` maps the selected index `i` to
`(i + 1) % n` and `select_previous_db` maps `0` to `n - 1` and `i > 0` to
`i - 1`; on an empty configured database list both are complete no-ops. -/
theorem C10_db_selector_wraparound (a : App) :
    (a.config.dbs ≠ [] →
      (App.select_next_db a).selected_db_index =
        (a.selected_db_index + 1) % a.config.dbs.length ∧
      (a.selected_db_index = 0 →
        (App.select_previous_db a).selected_db_index = a.config.dbs.length - 1) ∧
      (0 < a.selected_db_index →
        (App.select_previous_db a).selected_db_index = a.selected_db_index - 1)) ∧
    (a.config.dbs = [] →
      App.select_next_db a = a ∧ App.select_previous_db a = a) := by
  constructor
  · intro hne
    have hemp : a.config.dbs.isEmpty = false := by
      cases h : a.config.dbs with
      | nil => exact absurd h hne
      | cons x xs => rfl
    refine ⟨?_, ?_, ?_⟩
    · simp [App.select_next_db, hemp]
    · intro h0
      simp [App.select_previous_db, hemp, h0]
    · intro h0
      have h1 : ¬ a.selected_db_index = 0 := by omega
      simp [App.select_previous_db, hemp, h1]
  · intro he
    have hemp : a.config.dbs.isEmpty = true := by simp [he]
    constructor
    · simp [App.select_next_db, hemp]
    · simp [App.select_previous_db, hemp]

theorem C10_db_selector_wraparound_witness :
    appB.config.dbs ≠ [] ∧
      (App.select_next_db appB).selected_db_index = 0 ∧
      (App.select_previous_db appB).selected_db_index = 0 := by
  refine ⟨by decide, ?_, ?_⟩
  · exact ((C10_db_selector_wraparound appB).1 (by decide)).1.trans (by decide)
  · exact (((C10_db_selector_wraparound appB).1 (by decide)).2.2 (by decide)).trans
      (by decide)

/-- C1 counterexample: a database switch in which the connection succeeds but
the list load fails is a failed switch (`Err` is returned), yet the resulting
app differs from the starting one: the old list collection (one list,
selected) has been discarded and replaced by the fresh empty component, and
the current database config and pool have already been swapped. -/
theorem C1_counterexample :
    (App.switch_to_selected_db appA (fun _ => .ok 1) (fun _ => .error "boom")).2 =
        .error "Failed to load lists: boom" ∧
      (App.switch_to_selected_db appA (fun _ => .ok 1)
          (fun _ => .error "boom")).1 ≠ appA ∧
      (App.switch_to_selected_db appA (fun _ => .ok 1)
          (fun _ => .error "boom")).1.lists_component.lists = [] := by
  decide

/-- C1 (amended): a failed database switch leaves the state exactly unchanged
when the failure is the connection (`init_db`); but when the connection
succeeds and loading the new database's lists fails, the screen stays
unchanged while the current database config and pool have already been
replaced by the new database's and the list collection has been replaced by
the fresh empty component (the old lists and their selection are discarded
before the new ones were successfully loaded). -/
theorem C1_switch_failure_modes (a : App) (db : DBConfig) (e : String)
    (initDb : String → Except String Nat)
    (getAll : Nat → Except String (List UIList))
    (hdb : a.config.dbs.get? a.selected_db_index = some db) :
    (initDb db.connection_str = .error e →
      App.switch_to_selected_db a initDb getAll =
        (a, .error ("Failed to connect to database: " ++ e))) ∧
    (∀ p, initDb db.connection_str = .ok p → getAll p = .error e →
      App.switch_to_selected_db a initDb getAll =
        ({ a with
            current_db_config := db
            pool := p
            lists_component := ListsComponent.new },
          .error ("Failed to load lists: " ++ e))) := by
  constructor
  · intro hinit
    simp only [App.switch_to_selected_db, hdb, hinit]
  · intro p hinit hget
    simp only [App.switch_to_selected_db, hdb, hinit, ListsComponent.load_lists,
      hget]

theorem C1_switch_failure_modes_witness :
    appA.config.dbs.get? appA.selected_db_index = some dbA ∧
      App.switch_to_selected_db appA (fun _ => .ok 1) (fun _ => .error "boom") =
        ({ appA with
            current_db_config := dbA
            pool := 1
            lists_component := ListsComponent.new },
          .error "Failed to load lists: boom") := by
  refine ⟨by decide, ?_⟩
  have h := (C1_switch_failure_modes appA dbA "boom" (fun _ => .ok 1)
    (fun _ => .error "boom") (by decide)).2 1 rfl rfl
  exact h.trans (by decide)

/-- C5 counterexample: a failed registry write does not leave the in-memory
state unchanged. Setting the selected database (`beta`) as default with a
failing config write returns `Err` but leaves `config.default` changed from
`alpha` to `beta`; creating a database `gamma` with a failing config write
returns `Err` but leaves the new entry appended to `config.dbs`. -/
theorem C5_counterexample :
    (App.set_selected_db_as_default appB (some "/cfg")
        (fun _ => .error "boom")).2 = .error "Failed to save config: boom" ∧
      (App.set_selected_db_as_default appB (some "/cfg")
          (fun _ => .error "boom")).1.config.default = "beta" ∧
      appB.config.default = "alpha" ∧
      (App.create_new_database appA "gamma" false (some "/data") (.ok ())
          (fun _ => .ok 2) (some "/cfg")
          (fun _ => .error "boom")).2 = .error "Failed to save config: boom" ∧
      (App.create_new_database appA "gamma" false (some "/data") (.ok ())
          (fun _ => .ok 2) (some "/cfg")
          (fun _ => .error "boom")).1.config.dbs.length = 2 ∧
      appA.config.dbs.length = 1 := by
  decide

/-- C5 (amended): both registry-write operations apply their in-memory
mutation before attempting the configuration write and do not roll it back:
on a failed write, `set_selected_db_as_default` has already changed
`config.default` to the selected database's name, and `create_new_database`
has already appended the new entry to `config.dbs` (and changed
`config.default` when requested) while only `selected_db_index` is left
unchanged; failures occurring before the in-memory mutation (for
`create_new_database`, a failing database initialization) leave the state
exactly unchanged. -/
theorem C5_registry_write_no_rollback (a : App) (db : DBConfig) (e : String)
    (db_name d cf : String) (set_as_default : Bool)
    (initDb : String → Except String Nat)
    (writeCfg : Config → Except String Unit)
    (hdb : a.config.dbs.get? a.selected_db_index = some db) :
    (writeCfg { a.config with default := db.name } = .error e →
      App.set_selected_db_as_default a (some cf) writeCfg =
        ({ a with config := { a.config with default := db.name } },
          .error ("Failed to save config: " ++ e))) ∧
    (∀ p, initDb ("sqlite:" ++ (d ++ "/judo/" ++ db_name ++ ".db")) = .ok p →
      writeCfg (configAfterCreate a.config db_name d set_as_default) = .error e →
      App.create_new_database a db_name set_as_default (some d) (.ok ()) initDb
          (some cf) writeCfg =
        ({ a with config := configAfterCreate a.config db_name d set_as_default },
          .error ("Failed to save config: " ++ e))) ∧
    (initDb ("sqlite:" ++ (d ++ "/judo/" ++ db_name ++ ".db")) = .error e →
      App.create_new_database a db_name set_as_default (some d) (.ok ()) initDb
          (some cf) writeCfg =
        (a, .error ("Failed to initialize new database: " ++ e))) := by
  refine ⟨?_, ?_, ?_⟩
  · intro hw
    simp only [App.set_selected_db_as_default, hdb, hw]
  · intro p hinit hw
    cases set_as_default with
    | false =>
      simp only [configAfterCreate, if_neg Bool.false_ne_true] at hw ⊢
      simp only [App.create_new_database, hinit, if_neg Bool.false_ne_true, hw]
    | true =>
      simp only [App.create_new_database, configAfterCreate, hinit] at hw ⊢
      simp only [eq_self_iff_true, if_true] at hw ⊢
      rw [hw]
  · intro hinit
    simp only [App.create_new_database, hinit]

theorem C5_registry_write_no_rollback_witness :
    appB.config.dbs.get? appB.selected_db_index = some dbB ∧
      App.set_selected_db_as_default appB (some "/cfg") (fun _ => .error "boom") =
        ({ appB with config := { appB.config with default := "beta" } },
          .error "Failed to save config: boom") := by
  refine ⟨by decide, ?_⟩
  have h := (C5_registry_write_no_rollback appB dbB "boom" "gamma" "/data" "/cfg"
    false (fun _ => .ok 2) (fun _ => .error "boom") (by decide)).1 rfl
  exact h.trans (by decide)

end Judo
